import Mathlib

/-
Verification of the ZillowData scrape-and-ingest pipeline.

The definitions below are a shallow embedding of the repository sources:
  src/scraper/scrape.py        (retry decorator, handle_individual, get_max_pages)
  src/scraper/models.py        (Agent record, JobStatus enumeration)
  src/database/models.py       (relational tables)
  src/database/async_inserter.py (AsyncInserter methods)

Conventions of the embedding:
  - Database tables are lists of row structures; a SQLAlchemy session is a pair
    of database states (committed, pending): execute edits pending, commit
    copies pending into committed, rollback copies committed into pending.
  - Timestamp columns (Status.last_updated) are elided: no claim reads them.
  - Listing payload columns (price, address, ...) are elided: every claim about
    listings concerns only row identity (zpid) and the junction table.
  - Exceptions raised by the database driver are modelled only where a claim
    depends on them (check_status lookup failure, batch write-step failure).
-/

set_option linter.unusedVariables false

namespace ZillowData

/-! ## Record model (src/scraper/models.py) -/

/-- JobStatus enumeration from src/scraper/models.py. -/
inductive JobStatus where
  | NOT_SCRAPED
  | COMPLETED
  | PENDING
  | ERROR
  | UNKNOWN
  | INTERNAL_ERROR
deriving DecidableEq, Repr

/-- Value returned by AsyncInserter.check_status. The Python function can
return a JobStatus enum member, fall off the end of its if-chain (Python
None), or return a raw string from its exception handler, so the result type
distinguishes the three shapes. -/
inductive CheckStatusResult where
  | enum (j : JobStatus)
  | pyNone
  | pyStr (s : String)
deriving DecidableEq, Repr

/-- AsyncInserter.check_status (src/database/async_inserter.py lines 50-79).
The argument is the outcome of the job_status column lookup: an infrastructure
error, or the stored value (none when no row joined). -/
def check_status (lookup : Except Unit (Option String)) : CheckStatusResult :=
  match lookup with
  | .error _ => .pyStr "NOT_SCRAPED"
  | .ok job_status =>
    if job_status = some "COMPLETED" then .enum JobStatus.COMPLETED
    else if job_status = some "PENDING" then .enum JobStatus.PENDING
    else if job_status = some "ERROR" then .enum JobStatus.ERROR
    else if job_status = some "UNKNOWN" then .enum JobStatus.UNKNOWN
    else if job_status = none then .enum JobStatus.NOT_SCRAPED
    else .pyNone

/-! ## Retry decorator (src/scraper/scrape.py lines 26-52)

The decorator runs the wrapped function up to `retries` times; attempt
numbers are 1-based as in the Python range. Before a retry (only when
another attempt remains) it sets the use_premium keyword to True, but only
when the wrapped function is named handle_page. After all attempts fail it
returns the configured return_value. An attempt is modelled as a function of
the attempt number and the current use_premium flag. The model also records
the use_premium flag of every attempt that actually ran, so that claims
about fetch-mode escalation can be stated. -/

/-- Retry loop body. `remaining` is the number of attempts left (fuel),
`attempt` the 1-based attempt counter, `use_premium` the current keyword
value. Returns the result together with the list of use_premium flags of the
attempts that ran. -/
def retry_go (is_handle_page : Bool) (op : Nat → Bool → Except Unit α)
    (retries : Nat) (return_value : α) :
    Nat → Nat → Bool → α × List Bool
  | 0, _, _ => (return_value, [])
  | remaining + 1, attempt, use_premium =>
    match op attempt use_premium with
    | .ok v => (v, [use_premium])
    | .error _ =>
      let next_premium :=
        if attempt < retries then
          (if is_handle_page then true else use_premium)
        else use_premium
      let r := retry_go is_handle_page op retries return_value remaining
        (attempt + 1) next_premium
      (r.1, use_premium :: r.2)

/-- Full run of a function wrapped by retry(retries, return_value), starting
at attempt 1 with the given initial use_premium value. -/
def retry_run (is_handle_page : Bool) (op : Nat → Bool → Except Unit α)
    (retries : Nat) (return_value : α) (use_premium : Bool) : α × List Bool :=
  retry_go is_handle_page op retries return_value retries 1 use_premium

/-- Escalation test the decorator performs: func.__name__ == "handle_page".
For handle_individual this comparison is False. -/
def handle_individual_escalates : Bool := "handle_individual" == "handle_page"

/-- Default of the use_premium parameter of handle_individual
(src/scraper/scrape.py line 140); every call site submits handle_individual
without passing use_premium, so the initial flag is this default. -/
def handle_individual_use_premium_default : Bool := true

/-- A run of handle_individual as wrapped by retry(retries=3): return_value
defaults to None, modelled as Option.none. -/
def handle_individual_retry (op : Nat → Bool → Except Unit α) :
    Option α × List Bool :=
  retry_run handle_individual_escalates (fun i b => (op i b).map Option.some)
    3 Option.none handle_individual_use_premium_default

/-- Sentinel returned by get_max_pages when every attempt fails:
retry(retries=3, return_value=25). -/
def get_max_pages_return_value : Nat := 25

/-- A run of get_max_pages as wrapped by retry(retries=3, return_value=25).
get_max_pages takes no use_premium parameter and is not named handle_page,
so the flag is never consulted and never escalated. -/
def get_max_pages_retry (op : Nat → Except Unit Nat) : Nat × List Bool :=
  retry_run ("get_max_pages" == "handle_page") (fun i _ => op i)
    3 get_max_pages_return_value false

/-! ## Relational model (src/database/models.py) -/

/-- Row of the agent table. The scalar columns not listed here
(location, profile_link, sale counts, price range, team-lead and top-agent
flags) are written and overwritten exactly like business_name and full_name;
no claim distinguishes them, so they are represented by those two. -/
structure AgentRow where
  encodedzuid : String
  business_name : Option String
  full_name : Option String
  email : Option String
  ranking : Option Int
  page : Option Int
  specialties : Option (List String)
deriving DecidableEq, Repr

/-- Row of the city table. -/
structure CityRow where
  id : Nat
  city : String
  state : String
deriving DecidableEq, Repr

/-- Row of the status table (last_updated elided). -/
structure StatusRow where
  city_id : Nat
  job_status : String
deriving DecidableEq, Repr

/-- Row of the agent_city junction table. Its primary key is a surrogate id,
so the bulk insert with on_conflict_do_nothing never hits a conflict and
duplicate pairs may accumulate; the model therefore appends rows. -/
structure AgentCityRow where
  agent_id : String
  city_id : Nat
deriving DecidableEq, Repr

/-- Row of the phone table (surrogate primary key elided). -/
structure PhoneRow where
  agent_id : String
  phone : String
  type : String
deriving DecidableEq, Repr

/-- Row of the website table (surrogate primary key elided). -/
structure WebsiteRow where
  agent_id : String
  website_url : String
  website_type : Option String
deriving DecidableEq, Repr

/-- Row of the listing table: payload columns elided, identity is zpid. -/
structure ListingRow where
  zpid : Int
deriving DecidableEq, Repr

/-- Row of the listing_agent junction table (surrogate key elided). -/
structure ListingAgentRow where
  listing_id : Int
  agent_id : String
deriving DecidableEq, Repr

/-- The database state. next_city_id models the autoincrement sequence of
the city table; Postgres sequences start at 1, so a stored id is never 0 and
the Python falsy test (if not city_id) coincides with the None test that the
Option match below performs. -/
structure DB where
  next_city_id : Nat
  cities : List CityRow
  statuses : List StatusRow
  agents : List AgentRow
  agent_city : List AgentCityRow
  phones : List PhoneRow
  websites : List WebsiteRow
  listings : List ListingRow
  listing_agent : List ListingAgentRow
deriving DecidableEq, Repr

def empty_db : DB :=
  { next_city_id := 1, cities := [], statuses := [], agents := [],
    agent_city := [], phones := [], websites := [], listings := [],
    listing_agent := [] }

/-- A SQLAlchemy AsyncSession: committed database plus the pending state the
session sees (its own uncommitted statements included). -/
structure Session where
  committed : DB
  pending : DB
deriving DecidableEq, Repr

def fresh_session (db : DB) : Session := ⟨db, db⟩

def Session.commit (s : Session) : Session := ⟨s.pending, s.pending⟩

def Session.rollback (s : Session) : Session := ⟨s.committed, s.committed⟩

/-- Apply an execute statement to the pending state. -/
def Session.exec (s : Session) (f : DB → DB) : Session :=
  { s with pending := f s.pending }

/-! ## Incoming records (src/scraper/models.py Agent) -/

/-- Incoming listing payload; identity is zpid (other fields elided as in
ListingRow). -/
structure ListingIn where
  zpid : Int
deriving DecidableEq, Repr

/-- Incoming agent aggregate as handed to AsyncInserter.insert_agents. The
nested phoneNumbers object is flattened into its three optional fields. -/
structure AgentIn where
  encodedzuid : String
  business_name : Option String
  full_name : Option String
  email : Option String
  ranking : Option Int
  page : Option Int
  specialties : List String
  phoneNumber : Option String
  cell : Option String
  brokerage : Option String
  business : Option String
  websites : List (String × Option String)
  pastSales : List ListingIn
  forRentListing : List ListingIn
  forSaleListing : List ListingIn
deriving DecidableEq, Repr

/-! ## AsyncInserter: city and status (src/database/async_inserter.py) -/

/-- Python str.upper as used for city and state normalization, modelled as a
character-wise map. (String.toUpper in core cannot be evaluated by the
kernel, because String.map recurses on byte positions; this definition
computes in the kernel and denotes the same function.) -/
def upper (s : String) : String := ⟨s.data.map Char.toUpper⟩

/-- Lookup used by insert_city: select City.id where city and state match
(arguments are already upper-cased by the caller). -/
def lookup_city_id (cities : List CityRow) (city state : String) : Option Nat :=
  (cities.find? (fun r => r.city == city && r.state == state)).map (fun r => r.id)

/-- AsyncInserter.insert_city (lines 82-110): upper-case the pair, return the
existing id if present, otherwise insert the row, commit, and re-select the
id. Driver failures are not modelled here, so the except branch that returns
None is unreachable in the model. -/
def insert_city (s : Session) (city state : String) : Session × Option Nat :=
  let city := (upper city)
  let state := (upper state)
  match lookup_city_id s.pending.cities city state with
  | some city_id => (s, some city_id)
  | none =>
    let row : CityRow := ⟨s.pending.next_city_id, city, state⟩
    let s := s.exec (fun db =>
      { db with cities := db.cities ++ [row], next_city_id := db.next_city_id + 1 })
    let s := s.commit
    (s, lookup_city_id s.pending.cities city state)

/-- Status upsert with on_conflict_do_update on the city_id unique index:
update the matching row if one exists, otherwise insert. -/
def upsert_status (statuses : List StatusRow) (city_id : Nat) (status : String) :
    List StatusRow :=
  if statuses.any (fun r => r.city_id == city_id) then
    statuses.map (fun r =>
      if r.city_id == city_id then { r with job_status := status } else r)
  else statuses ++ [⟨city_id, status⟩]

/-- AsyncInserter.insert_status (lines 113-132): resolve or create the city,
then upsert its status row and commit. When insert_city yields no id, nothing
is written. -/
def insert_status (s : Session) (city state status : String) : Session :=
  match insert_city s city state with
  | (s, some city_id) =>
    ((s.exec (fun db =>
      { db with statuses := upsert_status db.statuses city_id status })).commit)
  | (s, none) => s

/-- Stored job status of a (city, state) pair: the job_status column of the
status row joined to the matching city row. -/
def job_status_of (db : DB) (city state : String) : Option String :=
  match lookup_city_id db.cities (upper city) (upper state) with
  | some city_id =>
    (db.statuses.find? (fun r => r.city_id == city_id)).map (fun r => r.job_status)
  | none => none

/-- Invariant claimed by the spec: a City row exists if and only if a Status
row exists for it. -/
def city_status_invariant (db : DB) : Prop :=
  (∀ c ∈ db.cities, ∃ st ∈ db.statuses, st.city_id = c.id) ∧
  (∀ st ∈ db.statuses, ∃ c ∈ db.cities, c.id = st.city_id)

instance (db : DB) : Decidable (city_status_invariant db) := by
  unfold city_status_invariant; infer_instance

/-! ## AsyncInserter: per-agent preparation -/

/-- Core-field dict built at the top of prepare_individual_agent. -/
def agent_data_of (a : AgentIn) : AgentRow :=
  { encodedzuid := a.encodedzuid
    business_name := a.business_name
    full_name := a.full_name
    email := a.email
    ranking := a.ranking
    page := a.page
    specialties := some a.specialties }

/-- AsyncInserter.prepare_individual_agent (lines 141-208). The Python
function selects (ranking, page, specialties) of the existing row; the model
receives that fetch result directly (none models fetchone returning None, in
which case the incoming data is returned as is). The merge rules:
page = min of incoming and existing when the incoming page is set, ranking is
kept from the existing row whenever the merged page equals the existing page,
and specialties become list(set(incoming + existing)), modelled as dedup of
the concatenation (Python set order is unspecified; properties are stated at
the level of finite sets). -/
def prepare_individual_agent (a : AgentIn) (agentExists : Bool)
    (og_agent_data : Option (Option Int × Option Int × Option (List String))) :
    AgentRow :=
  let agent_data := agent_data_of a
  if agentExists then
    match og_agent_data with
    | some (og_ranking, og_page, og_specialties) =>
      let new_page : Option Int :=
        match a.page with
        | some p => some (min p (og_page.getD p))
        | none => og_page
      let new_ranking : Option Int :=
        match a.page with
        | some p =>
          if some (min p (og_page.getD p)) = og_page then
            (match og_ranking with
             | some r => some r
             | none => a.ranking)
          else a.ranking
        | none => og_ranking
      let updated_specialties : List String :=
        match og_specialties with
        | some og => (a.specialties ++ og).dedup
        | none => a.specialties.dedup
      { agent_data with
          ranking := new_ranking
          page := new_page
          specialties := some updated_specialties }
    | none => agent_data
  else agent_data

/-- Keep-first deduplication of a list by a key, as done with the seen-sets in
prepare_phones, prepare_websites and prepare_listings. -/
def keep_first_by_go (key : α → β) [BEq β] : List α → List β → List α
  | [], _ => []
  | x :: xs, seen =>
    if seen.contains (key x) then keep_first_by_go key xs seen
    else x :: keep_first_by_go key xs (key x :: seen)

def keep_first_by (key : α → β) [BEq β] (l : List α) : List α :=
  keep_first_by_go key l []

/-- Truthiness check used all over insert_agents: agent exists when a row with
its encodedzuid is visible to the session. -/
def agent_exists (a : AgentIn) (s : Session) : Bool :=
  s.pending.agents.any (fun r => r.encodedzuid == a.encodedzuid)

/-- AsyncInserter.prepare_phones (lines 211-249): build the phone_data dict in
insertion order (primary, cell, brokerage, business), delete the existing
phone rows of the agent when it exists, and emit one row per distinct phone
value. -/
def prepare_phones (a : AgentIn) (agentExists : Bool) (s : Session) :
    Session × List PhoneRow :=
  let phone_data : List (String × String) :=
    (match a.phoneNumber with | some p => [("primary", p)] | none => []) ++
    (match a.cell with | some p => [("cell", p)] | none => []) ++
    (match a.brokerage with | some p => [("brokerage", p)] | none => []) ++
    (match a.business with | some p => [("business", p)] | none => [])
  let s :=
    if agentExists then
      s.exec (fun db =>
        { db with phones := db.phones.filter (fun r => !(r.agent_id == a.encodedzuid)) })
    else s
  let uniq := keep_first_by (fun tp => tp.2) phone_data
  (s, uniq.map (fun tp => { agent_id := a.encodedzuid, phone := tp.2, type := tp.1 }))

/-- AsyncInserter.prepare_websites (lines 252-278): delete existing website
rows of the agent when it exists, emit one row per distinct website_url. -/
def prepare_websites (a : AgentIn) (agentExists : Bool) (s : Session) :
    Session × List WebsiteRow :=
  let s :=
    if agentExists then
      s.exec (fun db =>
        { db with websites := db.websites.filter (fun r => !(r.agent_id == a.encodedzuid)) })
    else s
  let uniq := keep_first_by (fun w => w.1) a.websites
  (s, uniq.map (fun w =>
    { agent_id := a.encodedzuid, website_url := w.1, website_type := w.2 }))

/-- Orphan sweep shared by prepare_listings and delete_agent: delete every
listing whose zpid appears in no listing_agent row at all. -/
def delete_orphan_listings (db : DB) : DB :=
  { db with listings := db.listings.filter (fun l =>
      db.listing_agent.any (fun la => la.listing_id == l.zpid)) }

/-- AsyncInserter.prepare_listings (lines 281-357): when the agent exists,
delete its junction rows and then sweep globally orphaned listings; then walk
pastSales + forRentListing + forSaleListing skipping duplicate zpids,
producing listing rows and junction rows. -/
def prepare_listings (a : AgentIn) (agentExists : Bool) (s : Session) :
    Session × List ListingRow × List ListingAgentRow :=
  let s :=
    if agentExists then
      let s := s.exec (fun db =>
        { db with listing_agent :=
            db.listing_agent.filter (fun la => !(la.agent_id == a.encodedzuid)) })
      s.exec delete_orphan_listings
    else s
  let all := a.pastSales ++ a.forRentListing ++ a.forSaleListing
  let uniq := keep_first_by (fun l => l.zpid) all
  (s, uniq.map (fun l => { zpid := l.zpid }),
      uniq.map (fun l => { listing_id := l.zpid, agent_id := a.encodedzuid }))

/-! ## AsyncInserter: bulk write statements -/

/-- Agent bulk insert with on_conflict_do_update on encodedzuid: every
modelled column is in the set_ clause, so a conflicting row is fully
replaced. -/
def upsert_agent_row (tbl : List AgentRow) (r : AgentRow) : List AgentRow :=
  if tbl.any (fun x => x.encodedzuid == r.encodedzuid) then
    tbl.map (fun x => if x.encodedzuid == r.encodedzuid then r else x)
  else tbl ++ [r]

def upsert_agent_rows (tbl : List AgentRow) (data : List AgentRow) : List AgentRow :=
  data.foldl upsert_agent_row tbl

/-- Listing bulk insert with on_conflict_do_nothing on the zpid primary key:
an existing row is left untouched. -/
def insert_listing_rows (tbl : List ListingRow) (data : List ListingRow) :
    List ListingRow :=
  data.foldl (fun t r => if t.any (fun x => x.zpid == r.zpid) then t else t ++ [r]) tbl

/-! ## AsyncInserter.insert_agents (lines 372-533) -/

/-- The six gated write steps of one batch, in source order. -/
inductive WriteStep where
  | agentStep
  | agentCityStep
  | phoneStep
  | websiteStep
  | listingStep
  | listingAgentStep
deriving DecidableEq, Repr

/-- Data lists accumulated for one batch. -/
structure BatchData where
  agent_data : List AgentRow
  agent_city_data : List AgentCityRow
  phones_data : List PhoneRow
  websites_data : List WebsiteRow
  listing_data : List ListingRow
  listing_agent_data : List ListingAgentRow
deriving DecidableEq, Repr

def empty_batch_data : BatchData := ⟨[], [], [], [], [], []⟩

/-- Per-agent body of the batch preparation loop (lines 414-433). -/
def prepare_agent_into (city_id : Nat) (update_existing : Bool)
    (acc : Session × BatchData) (a : AgentIn) : Session × BatchData :=
  let s := acc.1
  let bd := acc.2
  let exists_ := agent_exists a s
  if !update_existing && exists_ then
    -- skip core-field writes, still queue the agent-city junction row
    (s, { bd with agent_city_data :=
            bd.agent_city_data ++ [⟨a.encodedzuid, city_id⟩] })
  else
    let og := (s.pending.agents.find? (fun r => r.encodedzuid == a.encodedzuid)).map
      (fun r => (r.ranking, r.page, r.specialties))
    let main_agent_data := prepare_individual_agent a exists_ og
    let ph := prepare_phones a exists_ s
    let wb := prepare_websites a exists_ ph.1
    let ls := prepare_listings a exists_ wb.1
    (ls.1, { agent_data := bd.agent_data ++ [main_agent_data]
             agent_city_data := bd.agent_city_data ++ [⟨a.encodedzuid, city_id⟩]
             phones_data := bd.phones_data ++ ph.2
             websites_data := bd.websites_data ++ wb.2
             listing_data := bd.listing_data ++ ls.2.1
             listing_agent_data := bd.listing_agent_data ++ ls.2.2 })

def prepare_batch (city_id : Nat) (update_existing : Bool) (s : Session)
    (batch : List AgentIn) : Session × BatchData :=
  batch.foldl (prepare_agent_into city_id update_existing) (s, empty_batch_data)

/-- One gated write step: skipped when its data list is empty, otherwise it
either fails (none) or applies its statement to the pending state. -/
def run_step (fails : WriteStep → Bool) (w : WriteStep) (guard : Bool)
    (f : DB → DB) (s : Session) : Option Session :=
  if guard then (if fails w then none else some (s.exec f)) else some s

/-- The write chain of one batch (lines 435-521). Returns none when a step
fails, otherwise the committed session. Each step is gated on the previous
one succeeding and is skipped when its data list is empty. -/
def process_batch_writes (fails : WriteStep → Bool) (bd : BatchData)
    (s : Session) : Option Session :=
  match run_step fails WriteStep.agentStep true
    (fun db => { db with agents := upsert_agent_rows db.agents bd.agent_data }) s with
  | none => none
  | some s =>
  match run_step fails WriteStep.agentCityStep (!bd.agent_city_data.isEmpty)
    (fun db => { db with agent_city := db.agent_city ++ bd.agent_city_data }) s with
  | none => none
  | some s =>
  match run_step fails WriteStep.phoneStep (!bd.phones_data.isEmpty)
    (fun db => { db with phones := db.phones ++ bd.phones_data }) s with
  | none => none
  | some s =>
  match run_step fails WriteStep.websiteStep (!bd.websites_data.isEmpty)
    (fun db => { db with websites := db.websites ++ bd.websites_data }) s with
  | none => none
  | some s =>
  match run_step fails WriteStep.listingStep (!bd.listing_data.isEmpty)
    (fun db => { db with listings := insert_listing_rows db.listings bd.listing_data }) s with
  | none => none
  | some s =>
  match run_step fails WriteStep.listingAgentStep (!bd.listing_agent_data.isEmpty)
    (fun db => { db with listing_agent := db.listing_agent ++ bd.listing_agent_data }) s with
  | none => none
  | some s => some s.commit

/-- One iteration of the batch loop. When a write step fails, the Python
handler calls insert_status(ERROR) and then session.rollback(); after a
failed SQL statement the transaction is aborted, so the select inside
insert_city raises, insert_city rolls the session back and returns None, and
insert_status writes nothing: the net effect of the handler is a rollback of
the pending batch writes and no status change. When the batch produced no
agent_data at all (every agent skipped), the loop records an ERROR status and
moves on. -/
def process_batch (city state : String) (city_id : Nat)
    (update_existing : Bool) (fails : WriteStep → Bool) (s : Session)
    (batch : List AgentIn) : Session :=
  let r := prepare_batch city_id update_existing s batch
  if r.2.agent_data.isEmpty then
    insert_status r.1 city state "ERROR"
  else
    match process_batch_writes fails r.2 r.1 with
    | some s2 => s2
    | none => r.1.rollback

def process_batches (city state : String) (city_id : Nat)
    (update_existing : Bool) (fails : Nat → WriteStep → Bool) :
    Session → List (List AgentIn) → Nat → Session
  | s, [], _ => s
  | s, b :: bs, i =>
    process_batches city state city_id update_existing fails
      (process_batch city state city_id update_existing (fails i) s b) bs (i + 1)

/-- Fixed-size batching of the agent list (batch_size = 250 in the source);
fuel makes the recursion structural so that concrete runs reduce in the
kernel. -/
def chunked_go (n : Nat) : Nat → List α → List (List α)
  | 0, _ => []
  | fuel + 1, xs =>
    if xs.isEmpty then [] else xs.take n :: chunked_go n fuel (xs.drop n)

def chunked (n : Nat) (xs : List α) : List (List α) :=
  chunked_go n xs.length xs

/-- AsyncInserter.insert_agents. `fails` injects write-step failures per batch
index; pass a constantly-false function for a failure-free run. Empty input
and a city-resolution failure record ERROR and return early; otherwise the
batches are processed in order and the status is set to COMPLETED at the end
of the loop. The per-batch truthiness filter of the source is the identity
(validated Agent objects are always truthy) and is omitted. -/
def insert_agents (db : DB) (agents : List AgentIn) (city state : String)
    (update_existing : Bool) (fails : Nat → WriteStep → Bool) : DB :=
  let s := fresh_session db
  if agents.isEmpty then
    ((insert_status s city state "ERROR").rollback).committed
  else
    match insert_city s city state with
    | (s, none) => ((insert_status s city state "ERROR").rollback).committed
    | (s, some city_id) =>
      let s := process_batches city state city_id update_existing fails s
        (chunked 250 agents) 0
      (insert_status s city state "COMPLETED").committed

/-! ## AsyncInserter: deletions (lines 692-754) -/

/-- AsyncInserter.delete_agent: remove the junction rows of the agent, sweep
globally orphaned listings, remove the agent row, commit. The whole body is
one transaction, so the model is the composite state change. -/
def delete_agent (db : DB) (encodedzuid : String) : DB :=
  let db := { db with listing_agent :=
      db.listing_agent.filter (fun la => !(la.agent_id == encodedzuid)) }
  let db := delete_orphan_listings db
  { db with agents := db.agents.filter (fun a => !(a.encodedzuid == encodedzuid)) }

/-- AsyncInserter.delete_listing: delete only the listing row with the given
zpid; the junction-table delete is commented out in the source, so
listing_agent rows are left untouched. -/
def delete_listing (db : DB) (zpid : Int) : DB :=
  { db with listings := db.listings.filter (fun l => !(l.zpid == zpid)) }

/-! ## Sample data for concrete runs -/

/-- Sample incoming agent aggregate. -/
def sample_agent : AgentIn :=
  { encodedzuid := "X1", business_name := none, full_name := some "NEW NAME",
    email := none, ranking := some 3, page := some 2,
    specialties := ["listing-agent"], phoneNumber := some "123",
    cell := none, brokerage := none, business := none,
    websites := [("http://a.com", none)],
    pastSales := [⟨1001⟩], forRentListing := [], forSaleListing := [⟨1002⟩] }

/-- Stored row for the same agent with different core fields. -/
def stored_row : AgentRow :=
  { encodedzuid := "X1", business_name := none, full_name := some "OLD NAME",
    email := none, ranking := some 9, page := some 5,
    specialties := some ["buyers-agent"] }

/-- Database already holding the sample agent row. -/
def db_with_stored_agent : DB := { empty_db with agents := [stored_row] }

/-- Database with two linked agents sharing listing 1002, agent X1 alone on
listing 1001, and listing 77 orphaned. -/
def db_listings : DB :=
  { empty_db with
    agents := [stored_row],
    listings := [⟨1001⟩, ⟨1002⟩, ⟨77⟩],
    listing_agent := [⟨1001, "X1"⟩, ⟨1002, "X1"⟩, ⟨1002, "Y2"⟩] }

/-! ## Helper lemmas -/

theorem find?_append_of_none {p : α → Bool} {l₁ l₂ : List α}
    (h : l₁.find? p = none) : (l₁ ++ l₂).find? p = l₂.find? p := by
  induction l₁ with
  | nil => rfl
  | cons a t ih =>
    rw [List.find?_cons] at h
    rcases hpa : p a with _ | _
    · simpa [List.find?_cons, hpa] using ih (by simpa [hpa] using h)
    · simp [hpa] at h

theorem chain'_of_forall_true {l : List Bool} (h : ∀ b ∈ l, b = true) :
    List.Chain' (fun x y => x = true → y = true) l := by
  induction l with
  | nil => simp
  | cons a t ih =>
    cases t with
    | nil => simp
    | cons b t2 =>
      rw [List.chain'_cons]
      exact ⟨fun _ => h b (by simp), ih (fun x hx => h x (List.mem_cons_of_mem a hx))⟩

/-- Flags recorded by the retry loop are all equal to the initial use_premium
value when the wrapped function is not named handle_page. -/
theorem retry_go_flags_const {α : Type} (op : Nat → Bool → Except Unit α)
    (retries : Nat) (rv : α) :
    ∀ rem attempt prem, ∀ b ∈ (retry_go false op retries rv rem attempt prem).2,
      b = prem := by
  intro rem
  induction rem with
  | zero => intro attempt prem b hb; simp [retry_go] at hb
  | succ k ih =>
    intro attempt prem b hb
    rw [retry_go] at hb
    rcases hop : op attempt prem with e | v
    · rw [hop] at hb
      have hpr : (if attempt < retries then (if false = true then true else prem)
          else prem) = prem := by simp
      rw [hpr] at hb
      rcases List.mem_cons.mp hb with h | h
      · exact h
      · exact ih (attempt + 1) prem b h
    · rw [hop] at hb
      simpa using hb

/-- Retry loop result when every attempt fails. -/
theorem retry_go_all_fail {α : Type} (ihp : Bool) (op : Nat → Bool → Except Unit α)
    (retries : Nat) (rv : α) (h : ∀ i b, op i b = Except.error ()) :
    ∀ rem attempt prem, (retry_go ihp op retries rv rem attempt prem).1 = rv := by
  intro rem
  induction rem with
  | zero => intro attempt prem; rfl
  | succ k ih =>
    intro attempt prem
    rw [retry_go, h attempt prem]
    exact ih (attempt + 1) _

/-- Computation of insert_city when the city is already present. -/
theorem insert_city_found {s : Session} {city state : String} {cid : Nat}
    (h : lookup_city_id s.pending.cities (upper city) (upper state) = some cid) :
    insert_city s city state = (s, some cid) := by
  unfold insert_city
  dsimp only
  rw [h]

/-- Computation of insert_city when the city is absent: the row is inserted
and committed, and the re-select returns the fresh id. -/
theorem insert_city_new {s : Session} {city state : String}
    (h : lookup_city_id s.pending.cities (upper city) (upper state) = none) :
    insert_city s city state =
      ((s.exec (fun db =>
        { db with
            cities := db.cities ++ [⟨s.pending.next_city_id, (upper city), (upper state)⟩],
            next_city_id := db.next_city_id + 1 })).commit,
       some s.pending.next_city_id) := by
  have hf : s.pending.cities.find?
      (fun r => r.city == (upper city) && r.state == (upper state)) = none := by
    rcases hc : s.pending.cities.find?
        (fun r => r.city == (upper city) && r.state == (upper state)) with _ | r
    · exact hc
    · rw [lookup_city_id, hc] at h
      simp at h
  unfold insert_city
  dsimp only
  rw [h]
  simp only [Prod.mk.injEq]
  refine ⟨trivial, ?_⟩
  simp only [Session.exec, Session.commit, lookup_city_id]
  rw [find?_append_of_none hf]
  simp [List.find?]

/-- Every status row of the table keeps a representative with the same
city_id across an upsert. -/
theorem upsert_status_keeps_ids (sts : List StatusRow) (cid : Nat) (status : String) :
    ∀ st ∈ sts, ∃ st2 ∈ upsert_status sts cid status, st2.city_id = st.city_id := by
  intro st hst
  unfold upsert_status
  by_cases hany : sts.any (fun r => r.city_id == cid)
  · rw [if_pos hany]
    refine ⟨(fun r => if r.city_id == cid then { r with job_status := status } else r) st,
      List.mem_map_of_mem _ hst, ?_⟩
    rcases hc : (st.city_id == cid) with _ | _ <;> simp [hc]
  · rw [if_neg hany]
    exact ⟨st, List.mem_append_left _ hst, rfl⟩

/-- Every row of an upserted status table either refers to the upsert target
or inherits its city_id from an existing row. -/
theorem upsert_status_ids_from (sts : List StatusRow) (cid : Nat) (status : String) :
    ∀ st2 ∈ upsert_status sts cid status,
      st2.city_id = cid ∨ ∃ st ∈ sts, st.city_id = st2.city_id := by
  intro st2 h2
  unfold upsert_status at h2
  by_cases hany : sts.any (fun r => r.city_id == cid)
  · rw [if_pos hany] at h2
    rcases List.mem_map.mp h2 with ⟨st, hst, heq⟩
    right
    refine ⟨st, hst, ?_⟩
    rcases hc : (st.city_id == cid) with _ | _ <;> simp [hc] at heq <;> rw [← heq]
  · rw [if_neg hany] at h2
    rcases List.mem_append.mp h2 with hmem | hmem
    · exact Or.inr ⟨st2, hmem, rfl⟩
    · left
      simp at hmem
      rw [hmem]

/-- The upsert leaves a row carrying the written status for the target
city_id. -/
theorem upsert_status_target (sts : List StatusRow) (cid : Nat) (status : String) :
    ∃ st2 ∈ upsert_status sts cid status,
      st2.city_id = cid ∧ st2.job_status = status := by
  unfold upsert_status
  by_cases hany : sts.any (fun r => r.city_id == cid)
  · rw [if_pos hany]
    rcases List.any_eq_true.mp hany with ⟨st, hst, hp⟩
    refine ⟨{ st with job_status := status },
      ?_, by simpa using hp, rfl⟩
    have : (fun r => if r.city_id == cid then { r with job_status := status } else r) st
        = { st with job_status := status } := by simp [hp]
    rw [← this]
    exact List.mem_map_of_mem _ hst
  · rw [if_neg hany]
    exact ⟨⟨cid, status⟩, List.mem_append_right _ (by simp), rfl, rfl⟩

/-- Reading the job_status of the target city_id after an upsert yields the
written status. -/
theorem find?_upsert_status (sts : List StatusRow) (cid : Nat) (status : String) :
    ((upsert_status sts cid status).find? (fun r => r.city_id == cid)).map
      (fun r => r.job_status) = some status := by
  unfold upsert_status
  by_cases hany : sts.any (fun r => r.city_id == cid)
  · rw [if_pos hany]
    induction sts with
    | nil => simp at hany
    | cons a t ih =>
      rcases ha : (a.city_id == cid) with _ | _
      · have hany2 : t.any (fun r => r.city_id == cid) := by
          rcases List.any_eq_true.mp hany with ⟨x, hx, hpx⟩
          rcases List.mem_cons.mp hx with hxa | hxt
          · rw [hxa] at hpx; rw [hpx] at ha; cases ha
          · exact List.any_eq_true.mpr ⟨x, hxt, hpx⟩
        simpa [List.find?, ha] using ih hany2
      · simp [List.find?, ha]
  · rw [if_neg hany]
    have hf : sts.find? (fun r => r.city_id == cid) = none := by
      refine List.find?_eq_none.mpr ?_
      intro x hx
      rcases hp : (x.city_id == cid) with _ | _
      · simp
      · exact absurd (List.any_eq_true.mpr ⟨x, hx, hp⟩) hany
    rw [find?_append_of_none hf]
    simp [List.find?]

/-- Unpacking a successful city lookup into the witnessing row. -/
theorem lookup_city_id_some {cities : List CityRow} {cu su : String} {cid : Nat}
    (h : lookup_city_id cities cu su = some cid) :
    ∃ r ∈ cities, r.id = cid ∧ r.city = cu ∧ r.state = su := by
  unfold lookup_city_id at h
  rcases hf : cities.find? (fun r => r.city == cu && r.state == su) with _ | r
  · rw [hf] at h; cases h
  · rw [hf] at h
    simp at h
    have hmem := List.mem_of_find?_eq_some hf
    have hp := List.find?_some hf
    simp at hp
    exact ⟨r, hmem, h, hp.1, hp.2⟩

/-- Lookup after appending the matching row to a table without a match. -/
theorem lookup_city_id_append_self {cities : List CityRow} {cu su : String} {n : Nat}
    (h : lookup_city_id cities cu su = none) :
    lookup_city_id (cities ++ [⟨n, cu, su⟩]) cu su = some n := by
  have hf : cities.find? (fun r => r.city == cu && r.state == su) = none := by
    rcases hc : cities.find? (fun r => r.city == cu && r.state == su) with _ | r
    · exact hc
    · rw [lookup_city_id, hc] at h; simp at h
  rw [lookup_city_id, find?_append_of_none hf]
  simp [List.find?]

/-- Computation of insert_status when the city lookup succeeds on the
session. -/
theorem insert_status_found {s : Session} {city state status : String} {cid : Nat}
    (hlk : lookup_city_id s.pending.cities (upper city) (upper state) = some cid) :
    insert_status s city state status =
      (s.exec (fun db =>
        { db with statuses := upsert_status db.statuses cid status })).commit := by
  unfold insert_status
  rw [insert_city_found hlk]

/-- Neither branch of insert_status touches the agents table. -/
theorem insert_status_agents (s : Session) (city state status : String) :
    (insert_status s city state status).committed.agents = s.pending.agents ∧
    (insert_status s city state status).pending.agents = s.pending.agents := by
  rcases hlk : lookup_city_id s.pending.cities (upper city) (upper state) with _ | cid
  · unfold insert_status
    rw [insert_city_new hlk]
    exact ⟨rfl, rfl⟩
  · unfold insert_status
    rw [insert_city_found hlk]
    exact ⟨rfl, rfl⟩

/-- Session bookkeeping of prepare_phones: committed state, cities, agents
and statuses of the pending state are untouched. -/
theorem prepare_phones_session (a : AgentIn) (ex : Bool) (s : Session) :
    (prepare_phones a ex s).1.committed = s.committed ∧
    (prepare_phones a ex s).1.pending.cities = s.pending.cities ∧
    (prepare_phones a ex s).1.pending.agents = s.pending.agents ∧
    (prepare_phones a ex s).1.pending.statuses = s.pending.statuses := by
  unfold prepare_phones
  dsimp only
  split
  · exact ⟨rfl, rfl, rfl, rfl⟩
  · exact ⟨rfl, rfl, rfl, rfl⟩

/-- Session bookkeeping of prepare_websites. -/
theorem prepare_websites_session (a : AgentIn) (ex : Bool) (s : Session) :
    (prepare_websites a ex s).1.committed = s.committed ∧
    (prepare_websites a ex s).1.pending.cities = s.pending.cities ∧
    (prepare_websites a ex s).1.pending.agents = s.pending.agents ∧
    (prepare_websites a ex s).1.pending.statuses = s.pending.statuses := by
  unfold prepare_websites
  dsimp only
  split
  · exact ⟨rfl, rfl, rfl, rfl⟩
  · exact ⟨rfl, rfl, rfl, rfl⟩

/-- Session bookkeeping of prepare_listings. -/
theorem prepare_listings_session (a : AgentIn) (ex : Bool) (s : Session) :
    (prepare_listings a ex s).1.committed = s.committed ∧
    (prepare_listings a ex s).1.pending.cities = s.pending.cities ∧
    (prepare_listings a ex s).1.pending.agents = s.pending.agents ∧
    (prepare_listings a ex s).1.pending.statuses = s.pending.statuses := by
  unfold prepare_listings delete_orphan_listings
  dsimp only
  split
  · exact ⟨rfl, rfl, rfl, rfl⟩
  · exact ⟨rfl, rfl, rfl, rfl⟩

/-- Session bookkeeping of the per-agent preparation body. -/
theorem prepare_agent_into_session (cid : Nat) (upd : Bool)
    (acc : Session × BatchData) (a : AgentIn) :
    (prepare_agent_into cid upd acc a).1.committed = acc.1.committed ∧
    (prepare_agent_into cid upd acc a).1.pending.cities = acc.1.pending.cities ∧
    (prepare_agent_into cid upd acc a).1.pending.agents = acc.1.pending.agents ∧
    (prepare_agent_into cid upd acc a).1.pending.statuses = acc.1.pending.statuses := by
  unfold prepare_agent_into
  dsimp only
  split
  · exact ⟨rfl, rfl, rfl, rfl⟩
  · obtain ⟨p1, p2, p3, p4⟩ :=
      prepare_phones_session a (agent_exists a acc.1) acc.1
    obtain ⟨w1, w2, w3, w4⟩ :=
      prepare_websites_session a (agent_exists a acc.1)
        (prepare_phones a (agent_exists a acc.1) acc.1).1
    obtain ⟨l1, l2, l3, l4⟩ :=
      prepare_listings_session a (agent_exists a acc.1)
        (prepare_websites a (agent_exists a acc.1)
          (prepare_phones a (agent_exists a acc.1) acc.1).1).1
    exact ⟨by rw [l1, w1, p1], by rw [l2, w2, p2],
           by rw [l3, w3, p3], by rw [l4, w4, p4]⟩

/-- Session bookkeeping of the whole batch preparation fold. -/
theorem foldl_prepare_session (cid : Nat) (upd : Bool) :
    ∀ (batch : List AgentIn) (acc : Session × BatchData),
      (batch.foldl (prepare_agent_into cid upd) acc).1.committed = acc.1.committed ∧
      (batch.foldl (prepare_agent_into cid upd) acc).1.pending.cities = acc.1.pending.cities ∧
      (batch.foldl (prepare_agent_into cid upd) acc).1.pending.agents = acc.1.pending.agents ∧
      (batch.foldl (prepare_agent_into cid upd) acc).1.pending.statuses = acc.1.pending.statuses := by
  intro batch
  induction batch with
  | nil => intro acc; exact ⟨rfl, rfl, rfl, rfl⟩
  | cons a t ih =>
    intro acc
    rw [List.foldl_cons]
    obtain ⟨i1, i2, i3, i4⟩ := ih (prepare_agent_into cid upd acc a)
    obtain ⟨j1, j2, j3, j4⟩ := prepare_agent_into_session cid upd acc a
    exact ⟨i1.trans j1, i2.trans j2, i3.trans j3, i4.trans j4⟩

theorem prepare_batch_session (cid : Nat) (upd : Bool) (s : Session)
    (batch : List AgentIn) :
    (prepare_batch cid upd s batch).1.committed = s.committed ∧
    (prepare_batch cid upd s batch).1.pending.cities = s.pending.cities ∧
    (prepare_batch cid upd s batch).1.pending.agents = s.pending.agents ∧
    (prepare_batch cid upd s batch).1.pending.statuses = s.pending.statuses :=
  foldl_prepare_session cid upd batch (s, empty_batch_data)

/-- A successful write step keeps the committed state and the cities of the
pending state, provided its statement does not touch the cities table. -/
theorem run_step_some {fails : WriteStep → Bool} {w : WriteStep} {g : Bool}
    {f : DB → DB} {s s2 : Session}
    (h : run_step fails w g f s = some s2)
    (hc : ∀ db, (f db).cities = db.cities) :
    s2.committed = s.committed ∧ s2.pending.cities = s.pending.cities := by
  unfold run_step at h
  split at h
  · split at h
    · cases h
    · cases h
      exact ⟨rfl, hc s.pending⟩
  · cases h
    exact ⟨rfl, rfl⟩

/-- A completed batch write chain commits a state whose cities are those of
the input session. -/
theorem process_batch_writes_some_cities {fails : WriteStep → Bool}
    {bd : BatchData} {s s2 : Session}
    (h : process_batch_writes fails bd s = some s2) :
    s2.committed.cities = s.pending.cities ∧
    s2.pending.cities = s.pending.cities := by
  unfold process_batch_writes at h
  rcases h1 : run_step fails WriteStep.agentStep true
      (fun db => { db with agents := upsert_agent_rows db.agents bd.agent_data }) s
    with _ | t1
  · rw [h1] at h; cases h
  rw [h1] at h
  dsimp only at h
  rcases h2 : run_step fails WriteStep.agentCityStep (!bd.agent_city_data.isEmpty)
      (fun db => { db with agent_city := db.agent_city ++ bd.agent_city_data }) t1
    with _ | t2
  · rw [h2] at h; cases h
  rw [h2] at h
  dsimp only at h
  rcases h3 : run_step fails WriteStep.phoneStep (!bd.phones_data.isEmpty)
      (fun db => { db with phones := db.phones ++ bd.phones_data }) t2
    with _ | t3
  · rw [h3] at h; cases h
  rw [h3] at h
  dsimp only at h
  rcases h4 : run_step fails WriteStep.websiteStep (!bd.websites_data.isEmpty)
      (fun db => { db with websites := db.websites ++ bd.websites_data }) t3
    with _ | t4
  · rw [h4] at h; cases h
  rw [h4] at h
  dsimp only at h
  rcases h5 : run_step fails WriteStep.listingStep (!bd.listing_data.isEmpty)
      (fun db => { db with listings := insert_listing_rows db.listings bd.listing_data }) t4
    with _ | t5
  · rw [h5] at h; cases h
  rw [h5] at h
  dsimp only at h
  rcases h6 : run_step fails WriteStep.listingAgentStep (!bd.listing_agent_data.isEmpty)
      (fun db => { db with listing_agent := db.listing_agent ++ bd.listing_agent_data }) t5
    with _ | t6
  · rw [h6] at h; cases h
  rw [h6] at h
  dsimp only at h
  simp only [Option.some.injEq] at h
  obtain ⟨_, c1⟩ := run_step_some h1 (fun db => rfl)
  obtain ⟨_, c2⟩ := run_step_some h2 (fun db => rfl)
  obtain ⟨_, c3⟩ := run_step_some h3 (fun db => rfl)
  obtain ⟨_, c4⟩ := run_step_some h4 (fun db => rfl)
  obtain ⟨_, c5⟩ := run_step_some h5 (fun db => rfl)
  obtain ⟨_, c6⟩ := run_step_some h6 (fun db => rfl)
  rw [← h]
  constructor
  · show t6.pending.cities = s.pending.cities
    rw [c6, c5, c4, c3, c2, c1]
  · show t6.pending.cities = s.pending.cities
    rw [c6, c5, c4, c3, c2, c1]

/-- When the agent upsert step fails, the whole write chain fails. -/
theorem process_batch_writes_fail {fails : WriteStep → Bool} {bd : BatchData}
    {s : Session} (h : fails WriteStep.agentStep = true) :
    process_batch_writes fails bd s = none := by
  unfold process_batch_writes run_step
  simp [h]

/-- One batch iteration keeps the cities table fixed, assuming the job city
is findable in it. -/
theorem process_batch_preserves_cities
    (city state : String) (city_id : Nat) (upd : Bool)
    (fails : WriteStep → Bool) (s : Session) (batch : List AgentIn)
    (C : List CityRow) (cid0 : Nat)
    (hlkC : lookup_city_id C (upper city) (upper state) = some cid0)
    (hc : s.committed.cities = C) (hp : s.pending.cities = C) :
    (process_batch city state city_id upd fails s batch).committed.cities = C ∧
    (process_batch city state city_id upd fails s batch).pending.cities = C := by
  obtain ⟨q1, q2, q3, q4⟩ := prepare_batch_session city_id upd s batch
  unfold process_batch
  dsimp only
  split
  · have hlk2 : lookup_city_id
        (prepare_batch city_id upd s batch).1.pending.cities
        (upper city) (upper state) = some cid0 := by
      rw [q2, hp]; exact hlkC
    rw [insert_status_found hlk2]
    constructor
    · show (prepare_batch city_id upd s batch).1.pending.cities = C
      rw [q2, hp]
    · show (prepare_batch city_id upd s batch).1.pending.cities = C
      rw [q2, hp]
  · rcases hw : process_batch_writes fails
        (prepare_batch city_id upd s batch).2
        (prepare_batch city_id upd s batch).1 with _ | s2
    · constructor
      · show (prepare_batch city_id upd s batch).1.committed.cities = C
        rw [q1, hc]
      · show (prepare_batch city_id upd s batch).1.committed.cities = C
        rw [q1, hc]
    · obtain ⟨r1, r2⟩ := process_batch_writes_some_cities hw
      exact ⟨by rw [r1, q2, hp], by rw [r2, q2, hp]⟩

/-- One batch iteration whose agent upsert step fails leaves the agents table
unchanged in both session components. -/
theorem process_batch_preserves_agents
    (city state : String) (city_id : Nat) (upd : Bool)
    (fails : WriteStep → Bool) (s : Session) (batch : List AgentIn)
    (A : List AgentRow)
    (hfail : fails WriteStep.agentStep = true)
    (hca : s.committed.agents = A) (hpa : s.pending.agents = A) :
    (process_batch city state city_id upd fails s batch).committed.agents = A ∧
    (process_batch city state city_id upd fails s batch).pending.agents = A := by
  obtain ⟨q1, q2, q3, q4⟩ := prepare_batch_session city_id upd s batch
  unfold process_batch
  dsimp only
  split
  · obtain ⟨e1, e2⟩ := insert_status_agents
      (prepare_batch city_id upd s batch).1 city state "ERROR"
    exact ⟨by rw [e1, q3, hpa], by rw [e2, q3, hpa]⟩
  · rw [process_batch_writes_fail hfail]
    constructor
    · show (prepare_batch city_id upd s batch).1.committed.agents = A
      rw [q1, hca]
    · show (prepare_batch city_id upd s batch).1.committed.agents = A
      rw [q1, hca]

/-- The batch loop keeps the cities table fixed. -/
theorem process_batches_preserves_cities
    (city state : String) (city_id : Nat) (upd : Bool)
    (fails : Nat → WriteStep → Bool) (C : List CityRow) (cid0 : Nat)
    (hlkC : lookup_city_id C (upper city) (upper state) = some cid0) :
    ∀ (bs : List (List AgentIn)) (i : Nat) (s : Session),
      s.committed.cities = C → s.pending.cities = C →
      (process_batches city state city_id upd fails s bs i).committed.cities = C ∧
      (process_batches city state city_id upd fails s bs i).pending.cities = C := by
  intro bs
  induction bs with
  | nil => intro i s hc hp; exact ⟨hc, hp⟩
  | cons b t ih =>
    intro i s hc hp
    rw [process_batches]
    obtain ⟨k1, k2⟩ := process_batch_preserves_cities city state city_id upd
      (fails i) s b C cid0 hlkC hc hp
    exact ih (i + 1) _ k1 k2

/-- The batch loop leaves the agents table unchanged when the agent upsert
step of every batch fails. -/
theorem process_batches_preserves_agents
    (city state : String) (city_id : Nat) (upd : Bool)
    (fails : Nat → WriteStep → Bool) (A : List AgentRow)
    (hfail : ∀ i, fails i WriteStep.agentStep = true) :
    ∀ (bs : List (List AgentIn)) (i : Nat) (s : Session),
      s.committed.agents = A → s.pending.agents = A →
      (process_batches city state city_id upd fails s bs i).committed.agents = A ∧
      (process_batches city state city_id upd fails s bs i).pending.agents = A := by
  intro bs
  induction bs with
  | nil => intro i s hc hp; exact ⟨hc, hp⟩
  | cons b t ih =>
    intro i s hc hp
    rw [process_batches]
    obtain ⟨k1, k2⟩ := process_batch_preserves_agents city state city_id upd
      (fails i) s b A (hfail i) hc hp
    exact ih (i + 1) _ k1 k2

/-! ## Claim theorems -/

/-- C1 counterexample: a run of insert_agents in which the only batch fails
at its first write step (so nothing of the batch is written — the agents
table stays empty) nevertheless records COMPLETED, not ERROR, as the final
job status for the city. -/
theorem insert_agents_failed_batch_final_status_completed :
    job_status_of
      (insert_agents empty_db [sample_agent] "Test City" "TS" true
        (fun _ w => w == WriteStep.agentStep)) "Test City" "TS"
      = some "COMPLETED" ∧
    (insert_agents empty_db [sample_agent] "Test City" "TS" true
        (fun _ w => w == WriteStep.agentStep)).agents = [] := by
  constructor
  · decide
  · decide

/-- C1 (amended): a failed batch write step rolls the pending batch writes
back and the remaining batches are still processed, but the final
insert_status call of insert_agents is unconditional, so the job status
recorded for (city, state) at the end of any call with a non-empty agent
list is COMPLETED — the final status does not reflect whether any batch
failed. In particular, when the agent upsert step of every batch fails, the
agents table is left exactly as it was. -/
theorem insert_agents_final_status_unconditionally_completed
    (db : DB) (agents : List AgentIn) (city state : String) (upd : Bool)
    (fails : Nat → WriteStep → Bool) (hne : agents ≠ []) :
    job_status_of (insert_agents db agents city state upd fails) city state
      = some "COMPLETED" ∧
    ((∀ i, fails i WriteStep.agentStep = true) →
      (insert_agents db agents city state upd fails).agents = db.agents) := by
  have hne2 : ¬ (agents.isEmpty = true) := by simp [hne]
  unfold insert_agents
  rw [if_neg hne2]
  rcases hlk0 : lookup_city_id db.cities (upper city) (upper state) with _ | cid
  · -- city absent: insert_city creates it before the loop
    have hlk0f : lookup_city_id (fresh_session db).pending.cities
        (upper city) (upper state) = none := hlk0
    rw [insert_city_new hlk0f]
    dsimp only [Session.exec, Session.commit, fresh_session]
    have hlkC : lookup_city_id
        (db.cities ++ [⟨db.next_city_id, (upper city), (upper state)⟩])
        (upper city) (upper state) = some db.next_city_id :=
      lookup_city_id_append_self hlk0
    obtain ⟨hc2, hp2⟩ := process_batches_preserves_cities city state
      db.next_city_id upd fails
      (db.cities ++ [⟨db.next_city_id, (upper city), (upper state)⟩])
      db.next_city_id hlkC (chunked 250 agents) 0
      ⟨{ db with
          cities := db.cities ++ [⟨db.next_city_id, (upper city), (upper state)⟩],
          next_city_id := db.next_city_id + 1 },
        { db with
          cities := db.cities ++ [⟨db.next_city_id, (upper city), (upper state)⟩],
          next_city_id := db.next_city_id + 1 }⟩ rfl rfl
    constructor
    · have hlk3 : lookup_city_id
          (process_batches city state db.next_city_id upd fails
            ⟨{ db with
                cities := db.cities ++ [⟨db.next_city_id, (upper city), (upper state)⟩],
                next_city_id := db.next_city_id + 1 },
              { db with
                cities := db.cities ++ [⟨db.next_city_id, (upper city), (upper state)⟩],
                next_city_id := db.next_city_id + 1 }⟩
            (chunked 250 agents) 0).pending.cities
          (upper city) (upper state) = some db.next_city_id := by
        rw [hp2]; exact hlkC
      rw [insert_status_found hlk3]
      unfold job_status_of
      dsimp only [Session.exec, Session.commit]
      rw [hp2, hlkC]
      exact find?_upsert_status _ _ _
    · intro hall
      obtain ⟨ha2, hp3⟩ := process_batches_preserves_agents city state
        db.next_city_id upd fails db.agents hall (chunked 250 agents) 0
        ⟨{ db with
            cities := db.cities ++ [⟨db.next_city_id, upper city, upper state⟩],
            next_city_id := db.next_city_id + 1 },
          { db with
            cities := db.cities ++ [⟨db.next_city_id, upper city, upper state⟩],
            next_city_id := db.next_city_id + 1 }⟩ rfl rfl
      obtain ⟨e1, _⟩ := insert_status_agents _ city state "COMPLETED"
      rw [e1, hp3]
  · -- city already present
    have hlk0f : lookup_city_id (fresh_session db).pending.cities
        (upper city) (upper state) = some cid := hlk0
    rw [insert_city_found hlk0f]
    dsimp only [fresh_session]
    obtain ⟨hc2, hp2⟩ := process_batches_preserves_cities city state
      cid upd fails db.cities cid hlk0 (chunked 250 agents) 0 ⟨db, db⟩ rfl rfl
    constructor
    · have hlk3 : lookup_city_id
          (process_batches city state cid upd fails ⟨db, db⟩
            (chunked 250 agents) 0).pending.cities
          (upper city) (upper state) = some cid := by
        rw [hp2]; exact hlk0
      rw [insert_status_found hlk3]
      unfold job_status_of
      dsimp only [Session.exec, Session.commit]
      rw [hp2, hlk0]
      exact find?_upsert_status _ _ _
    · intro hall
      obtain ⟨ha2, hp3⟩ := process_batches_preserves_agents city state
        cid upd fails db.agents hall (chunked 250 agents) 0 ⟨db, db⟩ rfl rfl
      obtain ⟨e1, _⟩ := insert_status_agents _ city state "COMPLETED"
      rw [e1, hp3]

/-- C1 witness: the amended statement instantiated with one concrete agent
and an always-failing agent upsert step. -/
theorem insert_agents_final_status_unconditionally_completed_witness :
    job_status_of
      (insert_agents db_with_stored_agent [sample_agent] "Test City" "TS" true
        (fun _ _ => true)) "Test City" "TS" = some "COMPLETED" ∧
    (insert_agents db_with_stored_agent [sample_agent] "Test City" "TS" true
        (fun _ _ => true)).agents = db_with_stored_agent.agents := by
  have h := insert_agents_final_status_unconditionally_completed
    db_with_stored_agent [sample_agent] "Test City" "TS" true
    (fun _ _ => true) (by simp)
  exact ⟨h.1, h.2 (fun i => rfl)⟩

/-- C6 (code behavior at the failing input): re-ingesting a single already
stored agent with update_existing = False leaves the stored core fields
unchanged, but records no Agent-City link at all — the batch produces no
agent_data, so the whole write block including the agent_city insert is
skipped, contradicting the claim (and the inline source comment) that the
junction row is still written. The final status is nevertheless COMPLETED. -/
theorem insert_agents_skip_existing_drops_agent_city_link :
    (insert_agents db_with_stored_agent [sample_agent] "Test City" "TS" false
        (fun _ _ => false)).agent_city = [] ∧
    (insert_agents db_with_stored_agent [sample_agent] "Test City" "TS" false
        (fun _ _ => false)).agents = [stored_row] ∧
    job_status_of
      (insert_agents db_with_stored_agent [sample_agent] "Test City" "TS" false
        (fun _ _ => false)) "Test City" "TS" = some "COMPLETED" := by
  refine ⟨by decide, by decide, by decide⟩

/-- C2 counterexample: check_status does not return UNKNOWN for an
unrecognized stored status value (it falls off the if-chain and returns
Python None), nor for a failed lookup (it returns the raw string
NOT_SCRAPED). -/
theorem check_status_unknown_counterexample :
    check_status (Except.ok (some "GARBAGE")) = CheckStatusResult.pyNone ∧
    check_status (Except.ok (some "GARBAGE")) ≠ CheckStatusResult.enum JobStatus.UNKNOWN ∧
    check_status (Except.error ()) = CheckStatusResult.pyStr "NOT_SCRAPED" ∧
    check_status (Except.error ()) ≠ CheckStatusResult.enum JobStatus.UNKNOWN := by
  refine ⟨rfl, by decide, rfl, by decide⟩

/-- C2 (amended): check_status maps the four recognized strings to their enum
members and a missing row to NOT_SCRAPED; a stored value outside the
recognized set makes the function return Python None, and a lookup failure
returns the raw string NOT_SCRAPED — in neither fallback case is
JobStatus.UNKNOWN returned. -/
theorem check_status_fallback_behavior (s : String)
    (h : s ∉ ["COMPLETED", "PENDING", "ERROR", "UNKNOWN"]) :
    check_status (Except.ok (some s)) = CheckStatusResult.pyNone ∧
    check_status (Except.error ()) = CheckStatusResult.pyStr "NOT_SCRAPED" ∧
    check_status (Except.ok (some "UNKNOWN")) = CheckStatusResult.enum JobStatus.UNKNOWN ∧
    check_status (Except.ok none) = CheckStatusResult.enum JobStatus.NOT_SCRAPED := by
  simp only [List.mem_cons, List.mem_singleton, not_or] at h
  obtain ⟨h1, h2, h3, h4⟩ := h
  refine ⟨?_, rfl, by decide, by decide⟩
  simp [check_status, h1, h2, h3, h4]

/-- C2 witness: the amended behavior at a concrete unrecognized value. -/
theorem check_status_fallback_behavior_witness :
    check_status (Except.ok (some "BANANA")) = CheckStatusResult.pyNone ∧
    check_status (Except.error ()) = CheckStatusResult.pyStr "NOT_SCRAPED" ∧
    check_status (Except.ok (some "UNKNOWN")) = CheckStatusResult.enum JobStatus.UNKNOWN ∧
    check_status (Except.ok none) = CheckStatusResult.enum JobStatus.NOT_SCRAPED :=
  check_status_fallback_behavior "BANANA" (by decide)

/-- C3: in a retried handle_individual call, every attempt that runs uses the
premium fetch mode (the use_premium parameter defaults to True and no call
site overrides it), and the mode never de-escalates from premium to cheap on
a later attempt. -/
theorem handle_individual_retry_always_premium {α : Type}
    (op : Nat → Bool → Except Unit α) :
    (∀ b ∈ (handle_individual_retry op).2, b = true) ∧
    List.Chain' (fun x y => x = true → y = true) (handle_individual_retry op).2 := by
  have hesc : handle_individual_escalates = false := by decide
  have hall : ∀ b ∈ (handle_individual_retry op).2, b = true := by
    intro b hb
    unfold handle_individual_retry retry_run at hb
    rw [hesc] at hb
    exact retry_go_flags_const _ 3 Option.none 3 1 true b hb
  exact ⟨hall, chain'_of_forall_true hall⟩

/-- C3 witness: concrete run in which every attempt fails; all recorded
use_premium flags are true. -/
theorem handle_individual_retry_always_premium_witness :
    (∀ b ∈ (handle_individual_retry (fun (_ : Nat) (_ : Bool) =>
        (Except.error () : Except Unit Nat))).2, b = true) ∧
    List.Chain' (fun x y => x = true → y = true)
      (handle_individual_retry (fun (_ : Nat) (_ : Bool) =>
        (Except.error () : Except Unit Nat))).2 :=
  handle_individual_retry_always_premium _

/-- C9: when every attempt of a retry-wrapped operation raises, the wrapper
returns the configured return_value instead of propagating the exception. -/
theorem retry_returns_default_when_all_attempts_fail {α : Type}
    (is_handle_page : Bool) (op : Nat → Bool → Except Unit α)
    (retries : Nat) (return_value : α) (use_premium : Bool)
    (h : ∀ i b, op i b = Except.error ()) :
    (retry_run is_handle_page op retries return_value use_premium).1 = return_value :=
  retry_go_all_fail is_handle_page op retries return_value h retries 1 use_premium

/-- C9 witness: get_max_pages with every attempt failing returns the
conservative sentinel 25. -/
theorem retry_returns_default_when_all_attempts_fail_witness :
    (get_max_pages_retry (fun _ => Except.error ())).1 = 25 :=
  retry_returns_default_when_all_attempts_fail ("get_max_pages" == "handle_page")
    (fun i _ => Except.error ()) 3 get_max_pages_return_value false
    (fun _ _ => rfl)

/-- C5: merging an existing row with page P_old against an incoming record
with page P_new yields page min(P_new, P_old); the ranking is the incoming
one when P_new < P_old and otherwise the existing one (falling back to the
incoming one when the existing ranking is absent); the merged page never
exceeds the stored page. -/
theorem prepare_individual_agent_page_ranking_merge
    (a : AgentIn) (og_ranking : Option Int) (og_specialties : Option (List String))
    (p_old p_new : Int) (h : a.page = some p_new) :
    (prepare_individual_agent a true (some (og_ranking, some p_old, og_specialties))).page
        = some (min p_new p_old) ∧
    (prepare_individual_agent a true (some (og_ranking, some p_old, og_specialties))).ranking
        = (if p_new < p_old then a.ranking
           else match og_ranking with
                | some r => some r
                | none => a.ranking) ∧
    min p_new p_old ≤ p_old := by
  rcases lt_or_le p_new p_old with hlt | hle
  · have hmin : min p_new p_old = p_new := min_eq_left hlt.le
    have hne2 : p_new ≠ p_old := ne_of_lt hlt
    refine ⟨?_, ?_, min_le_right _ _⟩
    · simp [prepare_individual_agent, h, hmin]
    · simp [prepare_individual_agent, h, hmin, hne2, hlt]
  · have hmin : min p_new p_old = p_old := min_eq_right hle
    have hnlt : ¬ p_new < p_old := not_lt.mpr hle
    refine ⟨?_, ?_, min_le_right _ _⟩
    · simp [prepare_individual_agent, h, hmin]
    · simp [prepare_individual_agent, h, hmin, hnlt]

/-- C5 witness: concrete merge with stored page 5 and incoming page 2. -/
theorem prepare_individual_agent_page_ranking_merge_witness :
    (prepare_individual_agent sample_agent true
        (some (some 9, some 5, some ["buyers-agent"]))).page = some (min 2 5) ∧
    (prepare_individual_agent sample_agent true
        (some (some 9, some 5, some ["buyers-agent"]))).ranking
      = (if (2 : Int) < 5 then sample_agent.ranking
         else match (some 9 : Option Int) with
              | some r => some r
              | none => sample_agent.ranking) ∧
    min (2 : Int) 5 ≤ 5 :=
  prepare_individual_agent_page_ranking_merge sample_agent (some 9)
    (some ["buyers-agent"]) 5 2 rfl

/-- C8: when the existing row carries a specialties list, the merged
specialties are duplicate-free and equal, as a finite set, to the union of
the incoming and the existing specialties; in particular they contain both
the existing set and the incoming set. -/
theorem prepare_individual_agent_specialties_union
    (a : AgentIn) (og_ranking og_page : Option Int) (og_sp : List String) :
    ∃ l, (prepare_individual_agent a true (some (og_ranking, og_page, some og_sp))).specialties
          = some l
      ∧ l.Nodup
      ∧ l.toFinset = a.specialties.toFinset ∪ og_sp.toFinset
      ∧ og_sp.toFinset ⊆ l.toFinset
      ∧ a.specialties.toFinset ⊆ l.toFinset := by
  have hfin : (a.specialties ++ og_sp).dedup.toFinset
      = a.specialties.toFinset ∪ og_sp.toFinset := by
    ext x
    simp [List.mem_dedup]
  refine ⟨(a.specialties ++ og_sp).dedup, ?_, List.nodup_dedup _, hfin, ?_, ?_⟩
  · simp [prepare_individual_agent]
  · rw [hfin]; exact Finset.subset_union_right
  · rw [hfin]; exact Finset.subset_union_left

/-- C8 witness: concrete specialties merge. -/
theorem prepare_individual_agent_specialties_union_witness :
    ∃ l, (prepare_individual_agent sample_agent true
            (some (some 9, some 5, some ["buyers-agent"]))).specialties = some l
      ∧ l.Nodup
      ∧ l.toFinset = sample_agent.specialties.toFinset ∪ (["buyers-agent"] : List String).toFinset
      ∧ (["buyers-agent"] : List String).toFinset ⊆ l.toFinset
      ∧ sample_agent.specialties.toFinset ⊆ l.toFinset :=
  prepare_individual_agent_specialties_union sample_agent (some 9) (some 5)
    ["buyers-agent"]

/-- C4 counterexample: insert_city on an empty database creates a City row
with no Status row, so the City-iff-Status invariant is not preserved by
every operation. -/
theorem insert_city_breaks_city_status_invariant :
    city_status_invariant empty_db ∧
    ¬ city_status_invariant
      ((insert_city (fresh_session empty_db) "Test City" "TS").1).committed := by
  constructor
  · exact ⟨fun c hc => absurd hc (by simp [empty_db]),
      fun st hst => absurd hst (by simp [empty_db])⟩
  · decide

/-- C4 (amended): insert_status preserves the City-iff-Status invariant and
creates the City row if absent, leaving it with a Status row that carries the
written status; the invariant fails only through bare insert_city, which
creates a City row without any Status row. -/
theorem insert_status_preserves_city_status_invariant
    (db : DB) (city state status : String) (h : city_status_invariant db) :
    city_status_invariant (insert_status (fresh_session db) city state status).committed ∧
    ∃ c ∈ (insert_status (fresh_session db) city state status).committed.cities,
      c.city = (upper city) ∧ c.state = (upper state) ∧
      ∃ st ∈ (insert_status (fresh_session db) city state status).committed.statuses,
        st.city_id = c.id ∧ st.job_status = status := by
  obtain ⟨h1, h2⟩ := h
  rcases hlk : lookup_city_id db.cities (upper city) (upper state) with _ | cid
  · -- city absent: insert_city creates it, then the status upsert targets it
    have hic := insert_city_new (s := fresh_session db) hlk
    unfold insert_status
    rw [hic]
    dsimp only [Session.exec, Session.commit, fresh_session]
    constructor
    · constructor
      · intro c hc
        rcases List.mem_append.mp hc with hold | hnew
        · rcases h1 c hold with ⟨st, hst, hid⟩
          rcases upsert_status_keeps_ids db.statuses db.next_city_id status st hst
            with ⟨st2, hst2, hid2⟩
          exact ⟨st2, hst2, by rw [hid2, hid]⟩
        · simp at hnew
          rcases upsert_status_target db.statuses db.next_city_id status
            with ⟨st2, hst2, hcid2, _⟩
          exact ⟨st2, hst2, by rw [hcid2, hnew]⟩
      · intro st2 hst2
        rcases upsert_status_ids_from db.statuses db.next_city_id status st2 hst2
          with hcid2 | ⟨st, hst, hid⟩
        · exact ⟨⟨db.next_city_id, (upper city), (upper state)⟩,
            List.mem_append_right _ (by simp), by simpa using hcid2.symm⟩
        · rcases h2 st hst with ⟨c, hc, hcid⟩
          exact ⟨c, List.mem_append_left _ hc, by rw [hcid, hid]⟩
    · refine ⟨⟨db.next_city_id, (upper city), (upper state)⟩,
        List.mem_append_right _ (by simp), rfl, rfl, ?_⟩
      rcases upsert_status_target db.statuses db.next_city_id status
        with ⟨st2, hst2, hcid2, hjs2⟩
      exact ⟨st2, hst2, hcid2, hjs2⟩
  · -- city present: only the status table changes
    have hic := insert_city_found (s := fresh_session db) hlk
    rcases lookup_city_id_some hlk with ⟨r, hr, hrid, hrc, hrs⟩
    unfold insert_status
    rw [hic]
    dsimp only [Session.exec, Session.commit, fresh_session]
    constructor
    · constructor
      · intro c hc
        rcases h1 c hc with ⟨st, hst, hid⟩
        rcases upsert_status_keeps_ids db.statuses cid status st hst
          with ⟨st2, hst2, hid2⟩
        exact ⟨st2, hst2, by rw [hid2, hid]⟩
      · intro st2 hst2
        rcases upsert_status_ids_from db.statuses cid status st2 hst2
          with hcid2 | ⟨st, hst, hid⟩
        · exact ⟨r, hr, by rw [hrid, hcid2]⟩
        · rcases h2 st hst with ⟨c, hc, hcid⟩
          exact ⟨c, hc, by rw [hcid, hid]⟩
    · refine ⟨r, hr, hrc, hrs, ?_⟩
      rcases upsert_status_target db.statuses cid status
        with ⟨st2, hst2, hcid2, hjs2⟩
      exact ⟨st2, hst2, by rw [hcid2, hrid], hjs2⟩

/-- C4 witness: the amended statement at a concrete fresh database. -/
theorem insert_status_preserves_city_status_invariant_witness :
    city_status_invariant
      (insert_status (fresh_session empty_db) "Test City" "TS" "PENDING").committed ∧
    ∃ c ∈ (insert_status (fresh_session empty_db) "Test City" "TS" "PENDING").committed.cities,
      c.city = (upper "Test City") ∧ c.state = (upper "TS") ∧
      ∃ st ∈ (insert_status (fresh_session empty_db) "Test City" "TS" "PENDING").committed.statuses,
        st.city_id = c.id ∧ st.job_status = "PENDING" :=
  insert_status_preserves_city_status_invariant empty_db "Test City" "TS" "PENDING"
    ⟨fun c hc => absurd hc (by simp [empty_db]),
     fun st hst => absurd hst (by simp [empty_db])⟩

/-- C7: delete_agent removes the junction rows of the agent, deletes exactly
the listings left with no junction row at all, and removes the agent row;
City and Status rows (and phone and website rows) are untouched, and a
listing still linked to another agent stays present. -/
theorem delete_agent_spec (db : DB) (zuid : String) :
    (delete_agent db zuid).cities = db.cities ∧
    (delete_agent db zuid).statuses = db.statuses ∧
    (delete_agent db zuid).phones = db.phones ∧
    (delete_agent db zuid).websites = db.websites ∧
    (∀ x ∈ db.agents, (x ∈ (delete_agent db zuid).agents ↔ x.encodedzuid ≠ zuid)) ∧
    (∀ la ∈ db.listing_agent,
      (la ∈ (delete_agent db zuid).listing_agent ↔ la.agent_id ≠ zuid)) ∧
    (∀ la ∈ (delete_agent db zuid).listing_agent, la ∈ db.listing_agent) ∧
    (∀ l ∈ db.listings,
      (l ∈ (delete_agent db zuid).listings ↔
        ∃ la ∈ db.listing_agent, la.agent_id ≠ zuid ∧ la.listing_id = l.zpid)) := by
  refine ⟨rfl, rfl, rfl, rfl, ?_, ?_, ?_, ?_⟩
  · intro x hx
    simp [delete_agent, delete_orphan_listings, List.mem_filter, hx]
  · intro la hla
    simp [delete_agent, delete_orphan_listings, List.mem_filter, hla]
  · intro la hla
    simp only [delete_agent, delete_orphan_listings, List.mem_filter] at hla
    exact hla.1
  · intro l hl
    simp only [delete_agent, delete_orphan_listings, List.mem_filter,
      List.any_eq_true, hl, true_and]
    constructor
    · rintro ⟨la, ⟨hmem, hag⟩, hlid⟩
      simp at hag hlid
      exact ⟨la, hmem, hag, hlid⟩
    · rintro ⟨la, hmem, hag, hlid⟩
      exact ⟨la, ⟨hmem, by simpa using hag⟩, by simpa using hlid⟩

/-- C7 witness: concrete run on the sample database — listing 1002 (still
linked to agent Y2) survives, listings 1001 and 77 are swept, and the agent
row is gone while city and status tables are untouched. -/
theorem delete_agent_spec_witness :
    (delete_agent db_listings "X1").cities = db_listings.cities ∧
    (delete_agent db_listings "X1").statuses = db_listings.statuses ∧
    (delete_agent db_listings "X1").phones = db_listings.phones ∧
    (delete_agent db_listings "X1").websites = db_listings.websites ∧
    (∀ x ∈ db_listings.agents,
      (x ∈ (delete_agent db_listings "X1").agents ↔ x.encodedzuid ≠ "X1")) ∧
    (∀ la ∈ db_listings.listing_agent,
      (la ∈ (delete_agent db_listings "X1").listing_agent ↔ la.agent_id ≠ "X1")) ∧
    (∀ la ∈ (delete_agent db_listings "X1").listing_agent,
      la ∈ db_listings.listing_agent) ∧
    (∀ l ∈ db_listings.listings,
      (l ∈ (delete_agent db_listings "X1").listings ↔
        ∃ la ∈ db_listings.listing_agent, la.agent_id ≠ "X1" ∧ la.listing_id = l.zpid)) :=
  delete_agent_spec db_listings "X1"

/-- C10: delete_listing removes exactly the listing row with the given zpid
and leaves all other tables untouched, in particular every listing_agent
junction row — including rows that reference the deleted zpid, which are left
dangling. -/
theorem delete_listing_leaves_junction_rows (db : DB) (zpid : Int) :
    (delete_listing db zpid).listing_agent = db.listing_agent ∧
    (delete_listing db zpid).agents = db.agents ∧
    (delete_listing db zpid).cities = db.cities ∧
    (delete_listing db zpid).statuses = db.statuses ∧
    (delete_listing db zpid).phones = db.phones ∧
    (delete_listing db zpid).websites = db.websites ∧
    (∀ l ∈ db.listings, (l ∈ (delete_listing db zpid).listings ↔ l.zpid ≠ zpid)) ∧
    (∀ la ∈ db.listing_agent, la ∈ (delete_listing db zpid).listing_agent) := by
  refine ⟨rfl, rfl, rfl, rfl, rfl, rfl, ?_, fun la hla => hla⟩
  intro l hl
  simp [delete_listing, List.mem_filter, hl]

/-- C10 witness: deleting listing 1001 from the sample database leaves its
junction row dangling. -/
theorem delete_listing_leaves_junction_rows_witness :
    (delete_listing db_listings 1001).listing_agent = db_listings.listing_agent ∧
    (delete_listing db_listings 1001).agents = db_listings.agents ∧
    (delete_listing db_listings 1001).cities = db_listings.cities ∧
    (delete_listing db_listings 1001).statuses = db_listings.statuses ∧
    (delete_listing db_listings 1001).phones = db_listings.phones ∧
    (delete_listing db_listings 1001).websites = db_listings.websites ∧
    (∀ l ∈ db_listings.listings,
      (l ∈ (delete_listing db_listings 1001).listings ↔ l.zpid ≠ 1001)) ∧
    (∀ la ∈ db_listings.listing_agent,
      la ∈ (delete_listing db_listings 1001).listing_agent) :=
  delete_listing_leaves_junction_rows db_listings 1001

end ZillowData
